import Mathlib

/-!
Shallow embedding of the `zulip_bots` repository (the arxiv and kita Zulip
bots) for checking its natural-language specification.

The embedding translates, from the Python sources:
  * `bots/parser.py` — mention matching, shell-like tokenization (the Python
    standard library `shlex.split` in posix mode, as used by the parser),
    and the fallback behaviour of `parse_zulip_message`;
  * `bots/arxiv/arxiv.py` — the conversation-identity resolver
    `get_request_id_from_zulip_message` and the result-scanning loop of
    `send_updates_to_single_request`;
  * `bots/kita/kita.py` — the conversation-identity resolver
    `get_conversation_id` and the memory/quota state transition of
    `handle_message_to_openai`;
  * `bots/arxiv/requests.py` — `Request`, `RequestList` and their JSON
    persistence (`to_dict`/`from_dict`, `save_to_file`/`load_from_file`);
  * `bots/message.py` — the `Message` reply-sink value object.

Python `dict`s are modelled as association lists with Python's insertion
semantics (updating an existing key keeps its position, a new key is
appended), matching the insertion-order iteration of Python 3.7+ dicts.
Python exceptions are modelled with `Except`; values read from JSON are
modelled with a small JSON value type.
-/

/- ## Small Python-flavoured utilities -/

/-- The quote characters and backslash, written via code points. -/
def singleQuoteChar : Char := Char.ofNat 39

/-- The double-quote character. -/
def doubleQuoteChar : Char := Char.ofNat 34

/-- The backslash character. -/
def backslashChar : Char := Char.ofNat 92

/-- Whitespace as recognised by Python `str.strip` and the regex class `\s`
(ASCII fragment): space, tab, newline, carriage return, vertical tab,
form feed. -/
def isPySpace (c : Char) : Bool :=
  c = ' ' || c = Char.ofNat 9 || c = Char.ofNat 10 || c = Char.ofNat 13 ||
    c = Char.ofNat 11 || c = Char.ofNat 12

/-- Word characters as recognised by the regex class `\w` (ASCII fragment):
letters, digits and underscore. -/
def isPyWordChar (c : Char) : Bool :=
  c.isAlphanum || c = '_'

/-- Python `str.strip()`: drop leading and trailing whitespace. -/
def pyStrip (s : String) : String :=
  String.mk (((s.data.dropWhile fun c => isPySpace c).reverse.dropWhile
    fun c => isPySpace c).reverse)

/-- Python string comparison: lexicographic on the code-point sequence.
This is the order `sorted` uses on `str` values. -/
def pyStrLe (s t : String) : Prop := s.data ≤ t.data

instance : DecidableRel pyStrLe :=
  fun s t => inferInstanceAs (Decidable (s.data ≤ t.data))

instance : IsTotal String pyStrLe := ⟨fun a b => le_total a.data b.data⟩

instance : IsTrans String pyStrLe := ⟨fun _ _ _ => le_trans⟩

instance : IsAntisymm String pyStrLe :=
  ⟨fun a b h1 h2 => by
    cases a; cases b; exact congrArg String.mk (le_antisymm h1 h2)⟩

/-- Python `sorted` on strings: produces the unique permutation sorted by
the code-point lexicographic order (stability is immaterial because equal
strings are identical). Modelled by insertion sort. -/
def pySortedStr (l : List String) : List String :=
  List.insertionSort pyStrLe l

/-- Python `sorted` on integers: the unique ascending permutation. -/
def pySortedInt (l : List Int) : List Int :=
  List.insertionSort (fun a b : Int => a ≤ b) l

/- ## `bots/parser.py` -/

/-- The match `re.match(r"@[*]{2}\w+[*]{2}\s+(.*)", message)` from
`parse_zulip_message`, returning the text of capture group 1 when the
message starts with a bot mention. The pattern requires `@**`, at least
one word character, `**`, at least one whitespace character, and captures
greedily up to (not including) the next newline, exactly as the Python
regex does (`.` does not match a newline). -/
def matchMention (s : String) : Option String :=
  match s.data with
  | '@' :: c1 :: c2 :: rest =>
    if c1 = '*' && c2 = '*' then
      let w := rest.takeWhile fun c => isPyWordChar c
      if w.isEmpty then none
      else
        match rest.dropWhile fun c => isPyWordChar c with
        | c3 :: c4 :: rest2 =>
          if c3 = '*' && c4 = '*' then
            let sp := rest2.takeWhile fun c => isPySpace c
            if sp.isEmpty then none
            else
              some (String.mk ((rest2.dropWhile fun c => isPySpace c).takeWhile
                fun c => c ≠ Char.ofNat 10))
          else none
        | _ => none
    else none
  | _ => none

/-- Whitespace as recognised by `shlex` (its `whitespace` attribute):
space, tab, carriage return, newline. -/
def isShlexSpace (c : Char) : Bool :=
  c = ' ' || c = Char.ofNat 9 || c = Char.ofNat 13 || c = Char.ofNat 10

/-- Lexer mode of the `shlex.split` model: outside any token, inside an
unquoted token, inside single quotes, inside double quotes, or just after
a backslash (outside quotes, or inside double quotes). -/
inductive LexMode where
  | outTok
  | inTok
  | inSingle
  | inDouble
  | escOut
  | escDouble
deriving DecidableEq, Repr

/-- One pass of the Python `shlex` posix-mode tokenizer as invoked by
`shlex.split` (whitespace splitting, no comment characters): `acc` is the
current token read so far (reversed), `toks` the finished tokens
(reversed). Unterminated quotes raise `ValueError("No closing quotation")`
and a trailing backslash raises `ValueError("No escaped character")`;
both are modelled as `Except.error`. Inside double quotes a backslash
escapes only the double quote and the backslash itself, keeping the
backslash otherwise; inside single quotes nothing is special. -/
def shlexAux : List Char → LexMode → List Char → List String →
    Except String (List String)
  | [], .outTok, _, toks => .ok toks.reverse
  | [], .inTok, acc, toks => .ok (String.mk acc.reverse :: toks).reverse
  | [], .inSingle, _, _ => .error "No closing quotation"
  | [], .inDouble, _, _ => .error "No closing quotation"
  | [], .escOut, _, _ => .error "No escaped character"
  | [], .escDouble, _, _ => .error "No escaped character"
  | c :: cs, .outTok, _, toks =>
    if isShlexSpace c then shlexAux cs .outTok [] toks
    else if c = singleQuoteChar then shlexAux cs .inSingle [] toks
    else if c = doubleQuoteChar then shlexAux cs .inDouble [] toks
    else if c = backslashChar then shlexAux cs .escOut [] toks
    else shlexAux cs .inTok [c] toks
  | c :: cs, .inTok, acc, toks =>
    if isShlexSpace c then
      shlexAux cs .outTok [] (String.mk acc.reverse :: toks)
    else if c = singleQuoteChar then shlexAux cs .inSingle acc toks
    else if c = doubleQuoteChar then shlexAux cs .inDouble acc toks
    else if c = backslashChar then shlexAux cs .escOut acc toks
    else shlexAux cs .inTok (c :: acc) toks
  | c :: cs, .inSingle, acc, toks =>
    if c = singleQuoteChar then shlexAux cs .inTok acc toks
    else shlexAux cs .inSingle (c :: acc) toks
  | c :: cs, .inDouble, acc, toks =>
    if c = doubleQuoteChar then shlexAux cs .inTok acc toks
    else if c = backslashChar then shlexAux cs .escDouble acc toks
    else shlexAux cs .inDouble (c :: acc) toks
  | c :: cs, .escOut, acc, toks => shlexAux cs .inTok (c :: acc) toks
  | c :: cs, .escDouble, acc, toks =>
    if c = doubleQuoteChar || c = backslashChar then
      shlexAux cs .inDouble (c :: acc) toks
    else shlexAux cs .inDouble (c :: backslashChar :: acc) toks

/-- Python `shlex.split(s)` (posix mode), as called by
`parse_zulip_message`; `Except.error` models the raised `ValueError`. -/
def shlexSplit (s : String) : Except String (List String) :=
  shlexAux s.data .outTok [] []

/-- The four shapes of value returned by `parse_zulip_message`: `None`
when the message does not mention the bot; the free-form prompt dict
`{"<prompt>": [prompt]}`; the help dict `{"help": True, "help_message":
doc}`; or the dict produced by docopt. -/
inductive ParseOutcome (α : Type) where
  | noMention
  | promptResult (prompt : String)
  | helpResult (helpMessage : String)
  | parsed (args : α)
deriving DecidableEq, Repr

/-- `parse_zulip_message(message, doc)` from `bots/parser.py`. The external
`docopt` library call is abstracted as the parameter `docoptFn`, with
`none` modelling the `SystemExit` it raises on a grammar mismatch. The
function strips the mention, tokenizes `"bot " + remainder` with the
`shlex` model, falls back to a free-form prompt when tokenization fails,
short-circuits to help when `--help` or `-h` is among the tokens, and
otherwise runs docopt on the tokens after the leading `"bot"`. -/
def parse_zulip_message {α : Type} (docoptFn : List String → Option α)
    (message doc : String) : ParseOutcome α :=
  match matchMention message with
  | none => .noMention
  | some g =>
    let cmdline := "bot " ++ pyStrip g
    match shlexSplit cmdline with
    | .error _ => .promptResult (pyStrip g)
    | .ok tokens =>
      if tokens.contains "--help" || tokens.contains "-h" then
        .helpResult doc
      else
        match docoptFn (tokens.drop 1) with
        | none => .helpResult doc
        | some args => .parsed args

/- ## Message descriptors and the conversation-identity resolvers -/

/-- The `display_recipient` field of a Zulip message: for private messages
a list of participant descriptors (each abstracted here to its integer
`id`, the only field the resolvers read), for stream messages the stream
name. -/
inductive DisplayRecipient where
  | users (ids : List Int)
  | name (s : String)
deriving DecidableEq, Repr

/-- The slice of an inbound Zulip message dict read by the resolvers:
`type`, `display_recipient` and `subject`. -/
structure ZMessage where
  type : String
  display_recipient : DisplayRecipient
  subject : String
deriving DecidableEq, Repr

/-- `Arxiv.get_request_id_from_zulip_message` from `bots/arxiv/arxiv.py`:
for `private`, `sorted(str(user["id"]) for user in display_recipient)` as
a tuple — the ids are rendered to strings first and then sorted in the
string (code-point lexicographic) order; for `stream`, the pair
`(str(display_recipient), str(subject))`; for any other type a raised
`ValueError`, modelled as `Except.error`. A `display_recipient` whose
shape does not match the message type is outside the valid descriptor
space (the Python would raise a `TypeError` there for `private`); it is
also mapped to `Except.error`. -/
def get_request_id_from_zulip_message (m : ZMessage) :
    Except String (List String) :=
  if m.type = "private" then
    match m.display_recipient with
    | .users ids => .ok (pySortedStr (ids.map fun i => toString i))
    | .name _ => .error "invalid display_recipient for a private message"
  else if m.type = "stream" then
    match m.display_recipient with
    | .name s => .ok [s, m.subject]
    | .users _ => .error "invalid display_recipient for a stream message"
  else .error ("Unknown message type: " ++ m.type)

/-- The conversation key returned by `Kita.get_conversation_id`: for
private messages a tuple of the participant ids as integers (not
strings), for stream messages the `(stream, topic)` pair of strings. -/
inductive KitaKey where
  | pm (ids : List Int)
  | channel (stream topic : String)
deriving DecidableEq, Repr

/-- `Kita.get_conversation_id` from `bots/kita/kita.py`: for `private`,
`sorted(user["id"] for user in display_recipient)` — integer ids sorted
numerically; for `stream`, `(display_recipient, subject)`; for any other
message type it returns `None` (no exception is raised). A shape-mismatched
`display_recipient` is outside the valid descriptor space and is mapped to
`none`. -/
def get_conversation_id (m : ZMessage) : Option KitaKey :=
  if m.type = "private" then
    match m.display_recipient with
    | .users ids => some (.pm (pySortedInt ids))
    | .name _ => none
  else if m.type = "stream" then
    match m.display_recipient with
    | .name s => some (.channel s m.subject)
    | .users _ => none
  else none

/-- Modelled from the spec: the conversation key the specification
prescribes for a private message — "sort the participant identifiers
(numeric, ascending) and return them as an ordered tuple of strings". -/
def specPrivateConversationKey (ids : List Int) : List String :=
  (pySortedInt ids).map fun i => toString i

/- ## The result scan of `Arxiv.send_updates_to_single_request` -/

/-- The fields of an arXiv search result read by the update loop. The
publish instant is modelled as an integer timestamp (`datetime` values
compare like their timelines). -/
structure ArxivResult where
  title : String
  entry_id : String
  published : Int
deriving DecidableEq, Repr

/-- The markdown line appended for one result:
`f"- [{result.title}]({result.entry_id})"`. -/
def resultLine (r : ArxivResult) : String :=
  "- [" ++ r.title ++ "](" ++ r.entry_id ++ ")"

/-- The scanning loop of `send_updates_to_single_request`: walk the
results in order, append a line while `result.published > cutoff`, and
`break` at the first result that is not newer than the cutoff. -/
def collectNewLines (cutoff : Int) : List ArxivResult → List String
  | [] => []
  | r :: rs =>
    if cutoff < r.published then resultLine r :: collectNewLines cutoff rs
    else []

/-- Modelled from the spec: the full scan "with the same filter
predicate" — keep every result whose publish time is after the cutoff,
with no early exit. -/
def fullScanLines (cutoff : Int) (rs : List ArxivResult) : List String :=
  (rs.filter fun r => cutoff < r.published).map resultLine

/-- The text sent to the conversation: the joined lines, or the explicit
heartbeat message when no result passed the filter. -/
def updatesText (cutoff : Int) (rs : List ArxivResult) : String :=
  let lines := collectNewLines cutoff rs
  if lines.isEmpty then "No new results found."
  else String.intercalate (String.mk [Char.ofNat 10]) lines

/- ## `bots/message.py` and `bots/arxiv/requests.py` -/

/-- The `to` field of a reply `Message`: `list[str] | str`. -/
inductive MsgTo where
  | recipients (l : List String)
  | name (s : String)
deriving DecidableEq, Repr

/-- The `Message` dataclass of `bots/message.py`: the reply sink captured
with a subscription (`type`, optional `subject`, `to`). The Python field
`to` is spelled `to_` here because `to` is reserved in Lean. -/
structure Message where
  type : String
  subject : Option String
  to_ : MsgTo
deriving DecidableEq, Repr

/-- The `Request` dataclass of `bots/arxiv/requests.py`: a stored arXiv
search subscription. `id` is the conversation key (a tuple of strings),
`uuid` the generated primary key. -/
structure Request where
  id : List String
  uuid : String
  query : String
  owner_id : Int
  message : Message
deriving DecidableEq, Repr

/-- `Request.__eq__`: two requests are equal exactly when their
conversation keys (`id`) are equal — uuid, query, owner and message are
ignored. -/
def requestEq (r other : Request) : Bool :=
  r.id = other.id

/-- The `RequestList` dataclass: its `requests` dict, modelled as an
association list with Python dict semantics (unique keys, insertion
order). The lock only serialises access and has no sequential meaning. -/
structure RequestList where
  requests : List (String × Request)
deriving DecidableEq, Repr

/-- Python dict assignment `d[k] = v`: replace in place if `k` is already
a key, otherwise append at the end. -/
def dictInsert (k : String) (v : Request) :
    List (String × Request) → List (String × Request)
  | [] => [(k, v)]
  | (k', v') :: rest =>
    if k' = k then (k, v) :: rest else (k', v') :: dictInsert k v rest

/-- Python `del d[k]` for a present key (dict keys are unique, so deleting
the first occurrence is exact). -/
def dictErase (k : String) :
    List (String × Request) → List (String × Request)
  | [] => []
  | (k', v') :: rest =>
    if k' = k then rest else (k', v') :: dictErase k rest

/-- Python `k in d` / `d.get(k)` lookup. -/
def dictFind (k : String) : List (String × Request) → Option Request
  | [] => none
  | (k', v') :: rest => if k' = k then some v' else dictFind k rest

/-- `RequestList.add`: return `false` without mutation when any stored
request is `==` to the new one (same conversation key); otherwise store
the request under its uuid and return `true`. The returned pair is
(result, state after the call). -/
def RequestList.add (rl : RequestList) (request : Request) :
    Bool × RequestList :=
  if rl.requests.any fun p => requestEq p.2 request then (false, rl)
  else (true, ⟨dictInsert request.uuid request rl.requests⟩)

/-- `RequestList.remove`: return `false` when the uuid is absent,
otherwise delete it and return `true`. -/
def RequestList.remove (rl : RequestList) (id : String) :
    Bool × RequestList :=
  match dictFind id rl.requests with
  | none => (false, rl)
  | some _ => (true, ⟨dictErase id rl.requests⟩)

/- ## JSON snapshot persistence -/

/-- JSON values, as produced by `json.load` on the snapshot file. Numbers
are integral in the snapshot format. -/
inductive Json where
  | null
  | str (s : String)
  | num (n : Int)
  | arr (xs : List Json)
  | obj (fields : List (String × Json))

/-- Field access on a JSON object (Python `data["k"]` / `data.get("k")`;
keys of a parsed JSON object are unique). -/
def jsonLookup (k : String) : List (String × Json) → Option Json
  | [] => none
  | (k', v) :: rest => if k' = k then some v else jsonLookup k rest

/-- `Message.to_dict` (via `asdict`): the serialized reply sink. -/
def messageToDict (m : Message) : Json :=
  .obj [("type", .str m.type),
        ("subject", match m.subject with | none => .null | some s => .str s),
        ("to", match m.to_ with
               | .recipients l => .arr (l.map fun s => .str s)
               | .name s => .str s)]

/-- `Request.to_dict`: `asdict` of the dataclass with the message
re-serialized through `Message.to_dict`; the conversation-key tuple
becomes a JSON array of strings. -/
def requestToDict (r : Request) : Json :=
  .obj [("id", .arr (r.id.map fun s => .str s)),
        ("uuid", .str r.uuid),
        ("query", .str r.query),
        ("owner_id", .num r.owner_id),
        ("message", messageToDict r.message)]

/-- Decode a list of JSON strings elementwise; any non-string element is
a decoding error. -/
def decodeStrElems : List Json → Except Unit (List String)
  | [] => .ok []
  | .str s :: rest =>
    match decodeStrElems rest with
    | .ok l => .ok (s :: l)
    | .error e => .error e
  | _ :: _ => .error ()

/-- Decode a JSON array of strings (the stored conversation-key tuple or
recipient list); any other shape is a decoding error. -/
def decodeStrList : Json → Except Unit (List String)
  | .arr xs => decodeStrElems xs
  | _ => .error ()

/-- `Message.from_dict`: rebuild the reply sink from its dict. A missing
or null `subject` becomes `none` (Python `data.get("subject")`); `to` may
be an array of strings or a single string. A missing `type`/`to` key is
the Python `KeyError`, modelled as `Except.error`. -/
def messageFromDict (j : Json) : Except Unit Message :=
  match j with
  | .obj fields =>
    match jsonLookup "type" fields with
    | some (.str ty) =>
      let subject : Except Unit (Option String) :=
        match jsonLookup "subject" fields with
        | none => .ok none
        | some .null => .ok none
        | some (.str s) => .ok (some s)
        | some _ => .error ()
      match subject with
      | .error e => .error e
      | .ok subj =>
        match jsonLookup "to" fields with
        | some (.str s) => .ok ⟨ty, subj, .name s⟩
        | some (.arr xs) =>
          match decodeStrList (.arr xs) with
          | .ok l => .ok ⟨ty, subj, .recipients l⟩
          | .error e => .error e
        | _ => .error ()
    | _ => .error ()
  | _ => .error ()

/-- One snapshot entry as consumed by the `load_from_file` comprehension
`{data["uuid"]: Request.from_dict(data) for data in raw}`: the uuid field
(used both as the dict key and, through `data.get("uuid", ...)`, as the
request's uuid) together with `Request.from_dict(data)`. A missing
`uuid`/`id`/`query`/`owner_id`/`message` key is the Python `KeyError`,
modelled as `Except.error` (it is caught by `load_from_file`). -/
def decodeEntry (j : Json) : Except Unit (String × Request) :=
  match j with
  | .obj fields =>
    match jsonLookup "uuid" fields with
    | some (.str u) =>
      match jsonLookup "id" fields with
      | some idj =>
        match decodeStrList idj with
        | .ok idv =>
          match jsonLookup "query" fields with
          | some (.str q) =>
            match jsonLookup "owner_id" fields with
            | some (.num ow) =>
              match jsonLookup "message" fields with
              | some mj =>
                match messageFromDict mj with
                | .ok msg => .ok (u, ⟨idv, u, q, ow, msg⟩)
                | .error e => .error e
              | none => .error ()
            | _ => .error ()
          | _ => .error ()
        | .error e => .error e
      | none => .error ()
    | _ => .error ()
  | _ => .error ()

/-- Decode the entries of a snapshot array in order; the first failing
entry aborts the whole decode (the comprehension raises). -/
def decodeEntries : List Json → Except Unit (List (String × Request))
  | [] => .ok []
  | j :: rest =>
    match decodeEntry j with
    | .ok p =>
      match decodeEntries rest with
      | .ok l => .ok (p :: l)
      | .error e => .error e
    | .error e => .error e

/-- Decode a whole snapshot: the parsed JSON must be an array and every
entry must decode. -/
def decodeSnapshot (j : Json) : Except Unit (List (String × Request)) :=
  match j with
  | .arr xs => decodeEntries xs
  | _ => .error ()

/-- Rebuild the `requests` dict from the decoded entries, left to right,
exactly as the dict comprehension does (a repeated uuid keeps the last
entry). -/
def buildDict (entries : List (String × Request)) :
    List (String × Request) :=
  entries.foldl (fun d p => dictInsert p.1 p.2 d) []

/-- The state of the snapshot file as seen by `load_from_file`: absent,
unreadable/unparseable (an `OSError` or `json.JSONDecodeError` from
opening or `json.load`), or parsed JSON content. -/
inductive FileState where
  | missing
  | corrupt
  | content (j : Json)

/-- `RequestList.load_from_file`: an empty registry for a missing file;
an empty registry (after logging) when reading or parsing raises; the
rebuilt dict when the comprehension succeeds; and an empty registry
(after logging) when any entry makes the comprehension raise. The
function is total: no error escapes to the caller. -/
def load_from_file (fs : FileState) : RequestList :=
  match fs with
  | .missing => ⟨[]⟩
  | .corrupt => ⟨[]⟩
  | .content j =>
    match decodeSnapshot j with
    | .ok entries => ⟨buildDict entries⟩
    | .error _ => ⟨[]⟩

/-- `RequestList.save_to_file`: serialize the current requests, in dict
iteration order, as a JSON array (`[r.to_dict() for r in
self.requests.values()]`). -/
def save_to_file (rl : RequestList) : Json :=
  .arr (rl.requests.map fun p => requestToDict p.2)

/- ## `Kita.handle_message_to_openai` (`bots/kita/kita.py`) -/

/-- One turn record stored in the bounded conversation memory:
`{"role": ..., "content": ...}`. -/
structure ChatTurn where
  role : String
  content : String
deriving DecidableEq, Repr

/-- Append to a `deque(maxlen=cap)`: the new element goes to the right and
the oldest elements fall off the left when the capacity is exceeded. -/
def dequeAppend (cap : Nat) (d : List ChatTurn) (x : ChatTurn) :
    List ChatTurn :=
  let grown := d ++ [x]
  if cap < grown.length then grown.drop (grown.length - cap) else grown

/-- Pointwise update of a total map (the mutation of one defaultdict
slot). -/
def updFn {κ β : Type} [DecidableEq κ] (f : κ → β) (k : κ) (v : β) :
    κ → β :=
  fun q => if q = k then v else f q

/-- The mutable state of the Kita bot touched by
`handle_message_to_openai`: the per-conversation bounded memory
(`defaultdict(lambda: deque(maxlen=10))`, so every key starts empty) and
the per-user token usage (`defaultdict(int)`). The conversation key may
be `none`, exactly as `conv_id` may be Python `None`. -/
structure KitaState where
  conversationMemory : Option KitaKey → List ChatTurn
  tokenUsage : Int → Int

/-- `self.max_tokens` of the Kita bot. -/
def kitaMaxTokens : Int := 1000000

/-- The outcome of `self.client_ai.chat.completions.create(...)`: the call
raised, or returned a response whose first-choice message content is
`content` (with `none` for a missing message/content attribute) and whose
usage carries `totalTokens` (with `none` when absent). -/
inductive AIOutcome where
  | apiError
  | response (content : Option String) (totalTokens : Option Int)
deriving DecidableEq, Repr

/-- The mention-stripping prologue of `handle_message_to_openai`:
`if content.startswith("@**kita**"): content = content[len("@**kita**"):].strip()`. -/
def kitaNormalizeContent (content : String) : String :=
  if content.data.take 9 = "@**kita**".data then
    pyStrip (String.mk (content.data.drop 9))
  else content

/-- Whether the outcome yields usable assistant content: the call must
return, the first choice must carry a content string, and the string must
be non-empty after stripping (Python raises
`ValueError("No content returned ...")` otherwise, caught by the same
`except` as an API error). -/
def outcomeHasContent : AIOutcome → Bool
  | .apiError => false
  | .response none _ => false
  | .response (some raw) _ => !(pyStrip raw == "")

/-- `Kita.handle_message_to_openai` as a state transition. In order: the
quota guard returns unchanged when `token_usage[sender] > max_tokens`;
the mention prefix is stripped; the user turn is appended to the
conversation memory BEFORE the external call; then, depending on the
outcome: an exception or missing/empty content leaves the state as it is
after that append (the error reply is an external effect); usable content
appends the assistant turn and, when usage is present, adds
`usage.total_tokens` to the sender's counter. Replies sent to Zulip are
external I/O and not part of this state. -/
def handle_message_to_openai (st : KitaState) (sender : Int)
    (content : String) (convId : Option KitaKey) (outcome : AIOutcome) :
    KitaState :=
  if kitaMaxTokens < st.tokenUsage sender then st
  else
    let content2 := kitaNormalizeContent content
    let mem1 := dequeAppend 10 (st.conversationMemory convId)
      ⟨"user", content2⟩
    let st1 : KitaState :=
      ⟨updFn st.conversationMemory convId mem1, st.tokenUsage⟩
    match outcome with
    | .apiError => st1
    | .response none _ => st1
    | .response (some raw) tok =>
      let ai := pyStrip raw
      if ai = "" then st1
      else
        let mem2 := dequeAppend 10 mem1 ⟨"assistant", ai⟩
        let st2 : KitaState :=
          ⟨updFn st1.conversationMemory convId mem2, st1.tokenUsage⟩
        match tok with
        | some t =>
          ⟨st2.conversationMemory,
           updFn st2.tokenUsage sender (st2.tokenUsage sender + t)⟩
        | none => st2

/-- The slice of `Kita.handle_event` that resolves the conversation id
and dispatches a free-form prompt:
`conv_id = self.get_conversation_id(message)` followed by the final
`else` branch calling `handle_message_to_openai` with that `conv_id`
(which may be `None`) passed through unchecked. -/
def kita_handle_event_prompt (st : KitaState) (sender : Int)
    (content : String) (m : ZMessage) (outcome : AIOutcome) : KitaState :=
  handle_message_to_openai st sender content (get_conversation_id m) outcome

/- ## Registry well-formedness and dict lemmas -/

/-- The conversation keys of the stored requests, in storage order. -/
def storedIds (rl : RequestList) : List (List String) :=
  rl.requests.map fun p => p.2.id

/-- No two stored requests share a conversation key. -/
def NoDupConversationKeys (rl : RequestList) : Prop :=
  (storedIds rl).Nodup

instance (rl : RequestList) : Decidable (NoDupConversationKeys rl) := by
  unfold NoDupConversationKeys; infer_instance

/-- Structural well-formedness of the requests dict, maintained by every
registry operation: keys are unique (a dict property) and every request
is stored under its own uuid. -/
def WFRequestList (rl : RequestList) : Prop :=
  (rl.requests.map Prod.fst).Nodup ∧ ∀ p ∈ rl.requests, p.1 = p.2.uuid

instance (rl : RequestList) : Decidable (WFRequestList rl) := by
  unfold WFRequestList; infer_instance

theorem mem_dictInsert {k : String} {v : Request}
    {l : List (String × Request)} {p : String × Request}
    (hp : p ∈ dictInsert k v l) : p = (k, v) ∨ p ∈ l := by
  induction l with
  | nil =>
    simp only [dictInsert, List.mem_singleton] at hp
    exact Or.inl hp
  | cons q rest ih =>
    obtain ⟨k', v'⟩ := q
    simp only [dictInsert] at hp
    by_cases h : k' = k
    · rw [if_pos h] at hp
      rcases List.mem_cons.mp hp with h1 | h2
      · exact Or.inl h1
      · exact Or.inr (List.mem_cons.mpr (Or.inr h2))
    · rw [if_neg h] at hp
      rcases List.mem_cons.mp hp with h1 | h2
      · exact Or.inr (List.mem_cons.mpr (Or.inl h1))
      · rcases ih h2 with h3 | h4
        · exact Or.inl h3
        · exact Or.inr (List.mem_cons.mpr (Or.inr h4))

theorem dictInsert_of_not_mem_keys {k : String} {v : Request}
    {l : List (String × Request)} (h : k ∉ l.map Prod.fst) :
    dictInsert k v l = l ++ [(k, v)] := by
  induction l with
  | nil => rfl
  | cons q rest ih =>
    obtain ⟨k', v'⟩ := q
    simp only [List.map_cons, List.mem_cons] at h
    push_neg at h
    simp only [dictInsert]
    rw [if_neg (fun hq : k' = k => h.1 hq.symm)]
    rw [ih h.2, List.cons_append]

theorem keys_dictInsert_nodup {k : String} {v : Request}
    {l : List (String × Request)} (h : (l.map Prod.fst).Nodup) :
    ((dictInsert k v l).map Prod.fst).Nodup := by
  induction l with
  | nil => simp [dictInsert]
  | cons q rest ih =>
    obtain ⟨k', v'⟩ := q
    rw [List.map_cons, List.nodup_cons] at h
    simp only [dictInsert]
    by_cases hk : k' = k
    · rw [if_pos hk, List.map_cons, List.nodup_cons]
      exact ⟨fun hmem => h.1 (hk ▸ hmem), h.2⟩
    · rw [if_neg hk, List.map_cons, List.nodup_cons]
      refine ⟨fun hmem => ?_, ih h.2⟩
      rcases List.mem_map.mp hmem with ⟨p, hp, hfst⟩
      rcases mem_dictInsert hp with h1 | h2
      · exact hk (by rw [h1] at hfst; exact hfst.symm)
      · exact h.1 (hfst ▸ List.mem_map_of_mem Prod.fst h2)

theorem ids_dictInsert_nodup {k : String} {v : Request}
    {l : List (String × Request)}
    (h : (l.map fun p => p.2.id).Nodup)
    (hfresh : v.id ∉ l.map fun p => p.2.id) :
    ((dictInsert k v l).map fun p => p.2.id).Nodup := by
  induction l with
  | nil => simp [dictInsert]
  | cons q rest ih =>
    obtain ⟨k', v'⟩ := q
    rw [List.map_cons, List.nodup_cons] at h
    simp only [List.map_cons, List.mem_cons] at hfresh
    push_neg at hfresh
    simp only [dictInsert]
    by_cases hk : k' = k
    · rw [if_pos hk, List.map_cons, List.nodup_cons]
      exact ⟨hfresh.2, h.2⟩
    · rw [if_neg hk, List.map_cons, List.nodup_cons]
      refine ⟨fun hmem => ?_, ih h.2 hfresh.2⟩
      rcases List.mem_map.mp hmem with ⟨p, hp, hid⟩
      rcases mem_dictInsert hp with h1 | h2
      · exact hfresh.1 (by rw [h1] at hid; exact hid)
      · exact h.1 (hid ▸ List.mem_map_of_mem _ h2)

theorem dictErase_sublist (k : String) (l : List (String × Request)) :
    List.Sublist (dictErase k l) l := by
  induction l with
  | nil => simp [dictErase]
  | cons q rest ih =>
    obtain ⟨k', v'⟩ := q
    simp only [dictErase]
    by_cases h : k' = k
    · rw [if_pos h]
      exact List.sublist_cons_self _ _
    · rw [if_neg h]
      exact ih.cons₂ _

/- ## Snapshot codec round-trip lemmas -/

theorem decodeStrElems_map_str (l : List String) :
    decodeStrElems (l.map fun s => .str s) = .ok l := by
  induction l with
  | nil => rfl
  | cons s rest ih => simp [decodeStrElems, ih]

theorem messageFromDict_messageToDict (m : Message) :
    messageFromDict (messageToDict m) = .ok m := by
  obtain ⟨ty, subj, dest⟩ := m
  rcases subj with _ | s <;> rcases dest with l | s2
  · show (match decodeStrList (.arr (l.map fun s => .str s)) with
          | .ok l2 => Except.ok (Message.mk ty none (.recipients l2))
          | .error e => Except.error e) = .ok (Message.mk ty none (.recipients l))
    rw [show decodeStrList (.arr (l.map fun s => .str s)) = .ok l from
      decodeStrElems_map_str l]
  · rfl
  · show (match decodeStrList (.arr (l.map fun s => .str s)) with
          | .ok l2 => Except.ok (Message.mk ty (some s) (.recipients l2))
          | .error e => Except.error e) = .ok (Message.mk ty (some s) (.recipients l))
    rw [show decodeStrList (.arr (l.map fun s => .str s)) = .ok l from
      decodeStrElems_map_str l]
  · rfl

theorem decodeEntry_requestToDict (r : Request) :
    decodeEntry (requestToDict r) = .ok (r.uuid, r) := by
  obtain ⟨idv, u, q, ow, msg⟩ := r
  show (match decodeStrList (.arr (idv.map fun s => .str s)) with
        | .ok idv2 =>
          match messageFromDict (messageToDict msg) with
          | .ok msg2 => Except.ok (u, Request.mk idv2 u q ow msg2)
          | .error e => Except.error e
        | .error e => Except.error e) = .ok (u, Request.mk idv u q ow msg)
  rw [show decodeStrList (.arr (idv.map fun s => .str s)) = .ok idv from
    decodeStrElems_map_str idv]
  rw [messageFromDict_messageToDict]

theorem decodeSnapshot_save (rl : RequestList) :
    decodeSnapshot (save_to_file rl)
      = .ok (rl.requests.map fun p => (p.2.uuid, p.2)) := by
  show decodeEntries (rl.requests.map fun p => requestToDict p.2)
      = .ok (rl.requests.map fun p => (p.2.uuid, p.2))
  induction rl.requests with
  | nil => rfl
  | cons p rest ih => simp [decodeEntries, decodeEntry_requestToDict, ih]

theorem buildDict_aux_of_nodup_keys (entries acc : List (String × Request))
    (h : ((acc ++ entries).map Prod.fst).Nodup) :
    entries.foldl (fun d p => dictInsert p.1 p.2 d) acc = acc ++ entries := by
  induction entries generalizing acc with
  | nil => simp
  | cons p rest ih =>
    obtain ⟨k, v⟩ := p
    have hk : k ∉ acc.map Prod.fst := by
      intro hmem
      have hsplit := h
      rw [List.map_append, List.nodup_append] at hsplit
      exact hsplit.2.2 hmem (by simp)
    rw [List.foldl_cons, dictInsert_of_not_mem_keys hk]
    have h2 : (((acc ++ [(k, v)]) ++ rest).map Prod.fst).Nodup := by
      simpa [List.append_assoc] using h
    rw [ih (acc ++ [(k, v)]) h2, List.append_assoc]
    rfl

theorem buildDict_of_nodup_keys (entries : List (String × Request))
    (h : (entries.map Prod.fst).Nodup) :
    buildDict entries = entries := by
  have := buildDict_aux_of_nodup_keys entries [] (by simpa using h)
  simpa [buildDict] using this

theorem load_save_round_trip (rl : RequestList) (hwf : WFRequestList rl) :
    load_from_file (.content (save_to_file rl)) = rl := by
  obtain ⟨hkeys, huuid⟩ := hwf
  have hmap : (rl.requests.map fun p => (p.2.uuid, p.2)) = rl.requests := by
    have hcongr : (rl.requests.map fun p => (p.2.uuid, p.2))
        = rl.requests.map id := by
      apply List.map_congr_left
      intro p hp
      rw [← huuid p hp]
      exact Prod.mk.eta
    rw [hcongr, List.map_id]
  show (match decodeSnapshot (save_to_file rl) with
        | .ok entries => RequestList.mk (buildDict entries)
        | .error _ => RequestList.mk []) = rl
  rw [decodeSnapshot_save, hmap]
  show RequestList.mk (buildDict rl.requests) = rl
  rw [buildDict_of_nodup_keys _ hkeys]

/- ## Reachable registry states -/

/-- Registry states reachable through the public operations as the claimed
invariant quantifies them: a state loaded from an arbitrary snapshot file
at startup, then mutated by `add` and `remove`. -/
inductive ReachableAny : RequestList → Prop
  | load (fs : FileState) : ReachableAny (load_from_file fs)
  | add (rl : RequestList) (r : Request) :
      ReachableAny rl → ReachableAny (rl.add r).2
  | remove (rl : RequestList) (i : String) :
      ReachableAny rl → ReachableAny (rl.remove i).2

/-- Registry states reachable in the system's own runs: starting empty,
mutating with `add` and `remove`, and reloading only snapshots that
`save_to_file` produced from such a state (the startup load of the bot's
own db file), or failing to load (missing/corrupt file). -/
inductive Reachable : RequestList → Prop
  | empty : Reachable ⟨[]⟩
  | add (rl : RequestList) (r : Request) :
      Reachable rl → Reachable (rl.add r).2
  | remove (rl : RequestList) (i : String) :
      Reachable rl → Reachable (rl.remove i).2
  | loadMissing : Reachable (load_from_file .missing)
  | loadCorrupt : Reachable (load_from_file .corrupt)
  | loadSaved (rl : RequestList) :
      Reachable rl → Reachable (load_from_file (.content (save_to_file rl)))

theorem reachable_wf_and_nodup (rl : RequestList) (h : Reachable rl) :
    WFRequestList rl ∧ NoDupConversationKeys rl := by
  induction h with
  | empty => exact ⟨⟨List.nodup_nil, by simp⟩, List.nodup_nil⟩
  | add rl r hr ih =>
    obtain ⟨⟨hkeys, huuid⟩, hids⟩ := ih
    by_cases hdup : (rl.requests.any fun p => requestEq p.2 r) = true
    · have hstep : rl.add r = (false, rl) := by
        simp [RequestList.add, hdup]
      rw [hstep]
      exact ⟨⟨hkeys, huuid⟩, hids⟩
    · have hfresh : r.id ∉ rl.requests.map fun p => p.2.id := by
        intro hmem
        rcases List.mem_map.mp hmem with ⟨p, hp, hid⟩
        apply hdup
        rw [List.any_eq_true]
        exact ⟨p, hp, by simp [requestEq, hid]⟩
      have hstep : rl.add r = (true, ⟨dictInsert r.uuid r rl.requests⟩) := by
        simp [RequestList.add, hdup]
      rw [hstep]
      refine ⟨⟨keys_dictInsert_nodup hkeys, fun p hp => ?_⟩,
        ids_dictInsert_nodup hids hfresh⟩
      rcases mem_dictInsert hp with h1 | h2
      · rw [h1]
      · exact huuid p h2
  | remove rl i hr ih =>
    obtain ⟨⟨hkeys, huuid⟩, hids⟩ := ih
    rcases hfind : dictFind i rl.requests with _ | v
    · have hstep : rl.remove i = (false, rl) := by
        simp [RequestList.remove, hfind]
      rw [hstep]
      exact ⟨⟨hkeys, huuid⟩, hids⟩
    · have hstep : rl.remove i = (true, ⟨dictErase i rl.requests⟩) := by
        simp [RequestList.remove, hfind]
      rw [hstep]
      have hsub := dictErase_sublist i rl.requests
      refine ⟨⟨hkeys.sublist (hsub.map Prod.fst),
        fun p hp => huuid p (hsub.subset hp)⟩, ?_⟩
      show ((dictErase i rl.requests).map fun p => p.2.id).Nodup
      exact List.Nodup.sublist (hsub.map fun p => p.2.id) hids
  | loadMissing => exact ⟨⟨List.nodup_nil, by simp [load_from_file]⟩, List.nodup_nil⟩
  | loadCorrupt => exact ⟨⟨List.nodup_nil, by simp [load_from_file]⟩, List.nodup_nil⟩
  | loadSaved rl hr ih =>
    rw [load_save_round_trip rl ih.1]
    exact ih

/- ## Sample values used by witnesses -/

/-- A concrete reply sink used by concrete witnesses. -/
def sampleMessage : Message := ⟨"stream", some "topic", .name "general"⟩

/-- A concrete stored request. -/
def sampleRequest : Request :=
  ⟨["general", "topic"], "u1", "cat:cs.LG", 7, sampleMessage⟩

/-- A request in the same conversation as `sampleRequest` but with a
different uuid, query and owner. -/
def sampleRequestDup : Request :=
  ⟨["general", "topic"], "u2", "all:GAN", 8, sampleMessage⟩

/-- A request in a different conversation. -/
def sampleRequestOther : Request :=
  ⟨["general", "other"], "u3", "cat:math.CO", 9, sampleMessage⟩

/- ## Claims -/

/-- C1. For every registry state and every new request, `add` returns
`false` and leaves the registry unmutated when some stored request has
the same conversation key (whatever its query, owner or uuid); otherwise
it inserts the request keyed by its uuid and returns `true`. -/
theorem claim1_add_dedups_on_conversation_key
    (rl : RequestList) (req : Request) :
    ((∃ p ∈ rl.requests, p.2.id = req.id) → rl.add req = (false, rl)) ∧
    ((∀ p ∈ rl.requests, p.2.id ≠ req.id) →
      rl.add req = (true, ⟨dictInsert req.uuid req rl.requests⟩)) := by
  constructor
  · rintro ⟨p, hp, hid⟩
    have hany : (rl.requests.any fun q => requestEq q.2 req) = true := by
      rw [List.any_eq_true]
      exact ⟨p, hp, by simp [requestEq, hid]⟩
    simp [RequestList.add, hany]
  · intro h
    have hany : (rl.requests.any fun q => requestEq q.2 req) = false := by
      rw [List.any_eq_false]
      intro p hp
      simp [requestEq]
      exact h p hp
    simp [RequestList.add, hany]

/-- Witness for C1 at concrete inputs: a duplicate conversation key is
rejected without mutation, a fresh one is inserted under its uuid. -/
theorem claim1_witness :
    (RequestList.mk [("u1", sampleRequest)]).add sampleRequestDup
        = (false, RequestList.mk [("u1", sampleRequest)]) ∧
    (RequestList.mk [("u1", sampleRequest)]).add sampleRequestOther
        = (true, RequestList.mk
            [("u1", sampleRequest), ("u3", sampleRequestOther)]) :=
  ⟨(claim1_add_dedups_on_conversation_key
        (RequestList.mk [("u1", sampleRequest)]) sampleRequestDup).1
      ⟨("u1", sampleRequest), by decide, by decide⟩,
   (claim1_add_dedups_on_conversation_key
        (RequestList.mk [("u1", sampleRequest)]) sampleRequestOther).2
      (by decide)⟩

/-- C7. Loading from a missing file, or from a file whose contents cannot
be read or parsed as a valid snapshot, yields an empty registry; the
function is total, so no error reaches the caller. -/
theorem claim7_load_errors_yield_empty_registry :
    load_from_file .missing = ⟨[]⟩ ∧
    load_from_file .corrupt = ⟨[]⟩ ∧
    ∀ (j : Json) (e : Unit), decodeSnapshot j = .error e →
      load_from_file (.content j) = ⟨[]⟩ := by
  refine ⟨rfl, rfl, fun j e h => ?_⟩
  simp [load_from_file, h]

/-- Witness for C7: a parsed file whose top level is not an array decodes
to an error and loads as the empty registry. -/
theorem claim7_witness :
    load_from_file (.content (.str "not a snapshot")) = ⟨[]⟩ :=
  claim7_load_errors_yield_empty_registry.2.2 (.str "not a snapshot") () rfl

/-- C8. If the message mentions the bot and shell-like tokenization of
the extracted remainder fails, the parser returns a free-form-prompt
result wrapping the whole stripped remainder; being total, it raises
nothing. -/
theorem claim8_tokenize_failure_falls_back_to_prompt
    {α : Type} (docoptFn : List String → Option α)
    (message doc g e : String)
    (hm : matchMention message = some g)
    (hf : shlexSplit ("bot " ++ pyStrip g) = .error e) :
    parse_zulip_message docoptFn message doc = .promptResult (pyStrip g) := by
  simp [parse_zulip_message, hm, hf]

/-- Witness for C8: an unbalanced double quote makes tokenization fail
and the whole stripped remainder comes back as the prompt. -/
theorem claim8_witness :
    parse_zulip_message (fun _ => (none : Option Unit))
        "@**kita** say \"hello there  " "usage"
      = .promptResult "say \"hello there" :=
  claim8_tokenize_failure_falls_back_to_prompt
    (fun _ => (none : Option Unit))
    "@**kita** say \"hello there  " "usage" "say \"hello there  "
    "No closing quotation" (by decide) rfl

/-- C9. On any result sequence sorted by descending publish time, the
early-exit scan (stop at the first result not newer than the cutoff)
produces exactly the lines of the full filtering scan. -/
theorem claim9_early_exit_scan_equals_full_scan
    (cutoff : Int) (rs : List ArxivResult)
    (hsorted : rs.Sorted fun a b => b.published ≤ a.published) :
    collectNewLines cutoff rs = fullScanLines cutoff rs := by
  induction rs with
  | nil => rfl
  | cons r rest ih =>
    obtain ⟨hr, hrest⟩ := List.sorted_cons.mp hsorted
    by_cases h : cutoff < r.published
    · rw [show collectNewLines cutoff (r :: rest)
          = resultLine r :: collectNewLines cutoff rest from by
        simp [collectNewLines, h]]
      rw [ih hrest]
      simp [fullScanLines, List.filter_cons, h]
    · rw [show collectNewLines cutoff (r :: rest) = [] from by
        simp [collectNewLines, h]]
      have hall : ∀ b ∈ r :: rest, ¬ cutoff < b.published := by
        intro b hb
        rcases List.mem_cons.mp hb with h1 | h2
        · rw [h1]; exact h
        · exact fun hc => h (lt_of_lt_of_le hc (hr b h2))
      have hnil : (r :: rest).filter (fun x => decide (cutoff < x.published))
          = [] :=
        List.filter_eq_nil_iff.mpr (by intro b hb; simpa using hall b hb)
      simp [fullScanLines, hnil]

/-- Witness for C9 on a concrete descending result list straddling the
cutoff. -/
theorem claim9_witness :
    collectNewLines 5
        [⟨"A", "a", 9⟩, ⟨"B", "b", 7⟩, ⟨"C", "c", 4⟩, ⟨"D", "d", 2⟩]
      = fullScanLines 5
        [⟨"A", "a", 9⟩, ⟨"B", "b", 7⟩, ⟨"C", "c", 4⟩, ⟨"D", "d", 2⟩] :=
  claim9_early_exit_scan_equals_full_scan 5
    [⟨"A", "a", 9⟩, ⟨"B", "b", 7⟩, ⟨"C", "c", 4⟩, ⟨"D", "d", 2⟩]
    (by simp [List.sorted_cons])

theorem pySortedStr_perm_congr {l1 l2 : List String} (h : l1.Perm l2) :
    pySortedStr l1 = pySortedStr l2 :=
  List.eq_of_perm_of_sorted
    ((List.perm_insertionSort pyStrLe l1).trans
      (h.trans (List.perm_insertionSort pyStrLe l2).symm))
    (List.sorted_insertionSort pyStrLe l1)
    (List.sorted_insertionSort pyStrLe l2)

theorem pySortedInt_perm_congr {l1 l2 : List Int} (h : l1.Perm l2) :
    pySortedInt l1 = pySortedInt l2 :=
  List.eq_of_perm_of_sorted
    ((List.perm_insertionSort (fun a b : Int => a ≤ b) l1).trans
      (h.trans (List.perm_insertionSort (fun a b : Int => a ≤ b) l2).symm))
    (List.sorted_insertionSort (fun a b : Int => a ≤ b) l1)
    (List.sorted_insertionSort (fun a b : Int => a ≤ b) l2)

/-- C3. For every valid private-message descriptor, both resolvers return
the same conversation key under any permutation of the participant list
in the payload. -/
theorem claim3_private_key_permutation_invariant
    (ids1 ids2 : List Int) (subj : String) (h : ids1.Perm ids2) :
    get_request_id_from_zulip_message ⟨"private", .users ids1, subj⟩
      = get_request_id_from_zulip_message ⟨"private", .users ids2, subj⟩ ∧
    get_conversation_id ⟨"private", .users ids1, subj⟩
      = get_conversation_id ⟨"private", .users ids2, subj⟩ := by
  constructor
  · simp only [get_request_id_from_zulip_message]
    rw [pySortedStr_perm_congr (h.map fun i => toString i)]
  · simp only [get_conversation_id]
    rw [pySortedInt_perm_congr h]

/-- Witness for C3 on a concrete permuted pair of participant lists. -/
theorem claim3_witness :
    get_request_id_from_zulip_message ⟨"private", .users [12, 3, 7], ""⟩
      = get_request_id_from_zulip_message ⟨"private", .users [7, 12, 3], ""⟩ ∧
    get_conversation_id ⟨"private", .users [12, 3, 7], ""⟩
      = get_conversation_id ⟨"private", .users [7, 12, 3], ""⟩ :=
  claim3_private_key_permutation_invariant [12, 3, 7] [7, 12, 3] ""
    (by decide)

/-- C4 counterexample. With participants 2 and 10 the arxiv resolver
returns `("10", "2")` — the string renderings sorted lexicographically —
while the key the claim prescribes (numeric ascending, then rendered) is
`("2", "10")`. -/
theorem claim4_counterexample :
    get_request_id_from_zulip_message ⟨"private", .users [2, 10], "t"⟩
        = .ok ["10", "2"] ∧
    specPrivateConversationKey [2, 10] = ["2", "10"] ∧
    (["10", "2"] : List String) ≠ ["2", "10"] :=
  ⟨rfl, rfl, by decide⟩

/-- C4 (amended). For every private-message descriptor, the arxiv
resolver's key is the participants' identifiers rendered as strings and
sorted ascending in the code-point lexicographic string order, and the
kita resolver's key is the identifiers kept as integers and sorted
ascending numerically. -/
theorem claim4_amended_private_key_shapes (ids : List Int) (subj : String) :
    (∃ key : List String,
      get_request_id_from_zulip_message ⟨"private", .users ids, subj⟩
          = .ok key ∧
      key.Perm (ids.map fun i => toString i) ∧ key.Sorted pyStrLe) ∧
    (∃ ikey : List Int,
      get_conversation_id ⟨"private", .users ids, subj⟩
          = some (.pm ikey) ∧
      ikey.Perm ids ∧ ikey.Sorted fun a b : Int => a ≤ b) := by
  constructor
  · refine ⟨pySortedStr (ids.map fun i => toString i), rfl, ?_, ?_⟩
    · exact List.perm_insertionSort pyStrLe _
    · exact List.sorted_insertionSort pyStrLe _
  · refine ⟨pySortedInt ids, rfl, ?_, ?_⟩
    · exact List.perm_insertionSort _ _
    · exact List.sorted_insertionSort _ _

/-- C5 counterexample. On a message of unsupported type the kita resolver
does not fail: it returns `None`, and the caller silently uses `None` as
the conversation key — the prompt path still appends the user turn to the
memory slot keyed by `None`. -/
theorem claim5_counterexample :
    get_conversation_id ⟨"zephyr", .name "s", "t"⟩ = none ∧
    (kita_handle_event_prompt ⟨fun _ => [], fun _ => 0⟩ 1 "hi"
        ⟨"zephyr", .name "s", "t"⟩ .apiError).conversationMemory none
      = [⟨"user", "hi"⟩] :=
  ⟨rfl, rfl⟩

/-- C5 (amended). For every message whose type is neither `private` nor
`stream`, the arxiv resolver raises an unknown-message-type error, while
the kita resolver returns `None` (no error), which its caller then uses
as a conversation key. -/
theorem claim5_amended_unsupported_type_behaviour
    (m : ZMessage) (h1 : m.type ≠ "private") (h2 : m.type ≠ "stream") :
    get_request_id_from_zulip_message m
        = .error ("Unknown message type: " ++ m.type) ∧
    get_conversation_id m = none := by
  constructor
  · simp [get_request_id_from_zulip_message, h1, h2]
  · simp [get_conversation_id, h1, h2]

/-- Witness for the amended C5 at a concrete unsupported type. -/
theorem claim5_witness :
    get_request_id_from_zulip_message ⟨"zephyr", .users [1], "t"⟩
        = .error "Unknown message type: zephyr" ∧
    get_conversation_id ⟨"zephyr", .users [1], "t"⟩ = none :=
  claim5_amended_unsupported_type_behaviour ⟨"zephyr", .users [1], "t"⟩
    (by decide) (by decide)

/-- A syntactically valid snapshot file holding two entries with distinct
uuids but the same conversation key. -/
def badSnapshotJson : Json :=
  .arr
    [.obj [("id", .arr [.str "general", .str "topic"]),
           ("uuid", .str "u1"), ("query", .str "cat:cs.LG"),
           ("owner_id", .num 1),
           ("message", .obj [("type", .str "stream"),
                             ("subject", .str "topic"),
                             ("to", .str "general")])],
     .obj [("id", .arr [.str "general", .str "topic"]),
           ("uuid", .str "u2"), ("query", .str "all:GAN"),
           ("owner_id", .num 2),
           ("message", .obj [("type", .str "stream"),
                             ("subject", .str "topic"),
                             ("to", .str "general")])]] 

/-- C2 counterexample. Loading a snapshot file is a public operation and
`load_from_file` performs no conversation-key dedup, so the registry state
loaded from `badSnapshotJson` is reachable yet stores two live requests
with the same conversation key. -/
theorem claim2_counterexample :
    ReachableAny (load_from_file (.content badSnapshotJson)) ∧
    ¬ NoDupConversationKeys (load_from_file (.content badSnapshotJson)) :=
  ⟨ReachableAny.load (.content badSnapshotJson), by decide⟩

/-- C2 (amended). In every registry state the system itself reaches —
starting empty, mutating through `add`/`remove`, and reloading only
snapshots saved from such states (or failing to load) — no two stored
live requests share a conversation key. -/
theorem claim2_amended_reachable_states_have_unique_keys
    (rl : RequestList) (h : Reachable rl) : NoDupConversationKeys rl :=
  (reachable_wf_and_nodup rl h).2

/-- Witness for the amended C2: the state reached by two adds (one
succeeding, one rejected as a duplicate) has unique conversation keys. -/
theorem claim2_witness :
    NoDupConversationKeys
      (((RequestList.mk []).add sampleRequest).2.add sampleRequestDup).2 :=
  claim2_amended_reachable_states_have_unique_keys _
    (Reachable.add _ _ (Reachable.add _ _ Reachable.empty))

/-- C6. Saving a well-formed registry (keys unique, every request stored
under its own uuid — true of every state the operations produce) and
loading the snapshot back reproduces the registry exactly; in particular
two registries holding the same requests in different insertion orders
round-trip to registries holding the same requests. -/
theorem claim6_save_load_round_trip (rl rl2 : RequestList)
    (hwf : WFRequestList rl) (hwf2 : WFRequestList rl2)
    (hperm : rl.requests.Perm rl2.requests) :
    load_from_file (.content (save_to_file rl)) = rl ∧
    ((load_from_file (.content (save_to_file rl))).requests).Perm
      ((load_from_file (.content (save_to_file rl2))).requests) := by
  refine ⟨load_save_round_trip rl hwf, ?_⟩
  rw [load_save_round_trip rl hwf, load_save_round_trip rl2 hwf2]
  exact hperm

/-- Witness for C6 on two concrete registries holding the same two
requests in swapped insertion order. -/
theorem claim6_witness :
    load_from_file (.content (save_to_file
        (RequestList.mk [("u1", sampleRequest), ("u3", sampleRequestOther)])))
      = RequestList.mk [("u1", sampleRequest), ("u3", sampleRequestOther)] ∧
    ((load_from_file (.content (save_to_file
        (RequestList.mk [("u1", sampleRequest),
                         ("u3", sampleRequestOther)])))).requests).Perm
      ((load_from_file (.content (save_to_file
        (RequestList.mk [("u3", sampleRequestOther),
                         ("u1", sampleRequest)])))).requests) :=
  claim6_save_load_round_trip
    (RequestList.mk [("u1", sampleRequest), ("u3", sampleRequestOther)])
    (RequestList.mk [("u3", sampleRequestOther), ("u1", sampleRequest)])
    (by decide) (by decide) (by decide)

theorem dequeAppend_length (cap : Nat) (hcap : 0 < cap)
    (d : List ChatTurn) (x : ChatTurn) :
    (dequeAppend cap d x).length = min (d.length + 1) cap := by
  unfold dequeAppend
  by_cases h : cap < (d ++ [x]).length
  · rw [if_pos h, List.length_drop]
    simp only [List.length_append, List.length_singleton] at h ⊢
    omega
  · rw [if_neg h]
    simp only [List.length_append, List.length_singleton] at h ⊢
    omega

/-- C10. When the quota guard passes and the external completion call
fails or yields no usable content, the user's just-received turn stays in
the bounded per-conversation memory: the slot for this conversation ends
as the old slot with exactly the one user turn appended (evicting the
oldest entry only at capacity 10), because the append happens before the
call and the error branch does not roll it back. -/
theorem claim10_failed_call_keeps_user_turn
    (st : KitaState) (sender : Int) (content : String)
    (convId : Option KitaKey) (outcome : AIOutcome)
    (hquota : ¬ kitaMaxTokens < st.tokenUsage sender)
    (hfail : outcomeHasContent outcome = false) :
    (handle_message_to_openai st sender content convId
        outcome).conversationMemory convId
      = dequeAppend 10 (st.conversationMemory convId)
          ⟨"user", kitaNormalizeContent content⟩ ∧
    ((handle_message_to_openai st sender content convId
        outcome).conversationMemory convId).length
      = min ((st.conversationMemory convId).length + 1) 10 := by
  have hmem : (handle_message_to_openai st sender content convId
      outcome).conversationMemory convId
      = dequeAppend 10 (st.conversationMemory convId)
          ⟨"user", kitaNormalizeContent content⟩ := by
    cases outcome with
    | apiError =>
      simp [handle_message_to_openai, if_neg hquota, updFn]
    | response c tok =>
      cases c with
      | none => simp [handle_message_to_openai, if_neg hquota, updFn]
      | some raw =>
        have hempty : pyStrip raw = "" := by
          simpa [outcomeHasContent] using hfail
        simp [handle_message_to_openai, if_neg hquota, hempty, updFn]
  exact ⟨hmem, by rw [hmem, dequeAppend_length 10 (by omega)]⟩

/-- Witness for C10: a failing call on a fresh conversation leaves
exactly the user's turn in memory. -/
theorem claim10_witness :
    (handle_message_to_openai ⟨fun _ => [], fun _ => 0⟩ 5 "@**kita** help me"
        (some (.channel "general" "topic")) .apiError).conversationMemory
        (some (.channel "general" "topic"))
      = [⟨"user", "help me"⟩] ∧
    ((handle_message_to_openai ⟨fun _ => [], fun _ => 0⟩ 5 "@**kita** help me"
        (some (.channel "general" "topic")) .apiError).conversationMemory
        (some (.channel "general" "topic"))).length = 1 :=
  ⟨(claim10_failed_call_keeps_user_turn ⟨fun _ => [], fun _ => 0⟩ 5
      "@**kita** help me" (some (.channel "general" "topic")) .apiError
      (by decide) rfl).1,
   (claim10_failed_call_keeps_user_turn ⟨fun _ => [], fun _ => 0⟩ 5
      "@**kita** help me" (some (.channel "general" "topic")) .apiError
      (by decide) rfl).2⟩
